import Mathlib

/-!
Shallow embedding of the storage↔metadata reconciliation engine of the
file-manager repository: the `S3DBSyncJob` (sync-s3-db.ts), the S3 listing
post-processing of `S3Service.listFiles` (s3.ts), and the Kafka notifier
`publishFileDeletedEvent` (kafka.ts).

JavaScript strings are modelled as lists of characters; the JS `Set` built in
`findDiscrepancies` is modelled by the list of keys it is built from, with
`Set.has` as list membership.  Asynchronous I/O is modelled by a `World`
record that fixes, for one run, the outcome of every external call (the two
snapshot reads, each catalog insert/delete, the Kafka producer state and each
send); a run is then a pure function from a `World` and the `isRunning` flag
to a result, a trace of observable effects, and the flag's final value.
-/

namespace FileManager

/-- JavaScript strings, modelled as lists of characters. -/
abbrev Str := List Char

/-- Coerce a Lean string literal to the character-list model. -/
def str (s : String) : Str := s.data

/-- The part of `DEFAULT_CONFIG` (s3.ts) that the sync path reads: the store
endpoint and the bucket name, both taken from the environment-backed
`getS3Config()`. -/
structure S3Config where
  endpoint : Str
  bucket : Str
deriving DecidableEq

/-- The environment-default S3 configuration from `S3ConfigSchema`
(packages/config/src/s3.ts): endpoint `http://localhost:9000`,
bucket `files`. -/
def defaultS3Config : S3Config :=
  { endpoint := str "http://localhost:9000", bucket := str "files" }

/-- One entry of `response.Contents` returned by `ListObjectsV2` to
`S3Service.listFiles`: the raw store-side object (key, size, last-modified).
The listing is already restricted to the `files/` logical prefix by the
request. -/
structure S3ObjectRaw where
  key : Str
  size : Nat
  lastModified : Nat
deriving DecidableEq

/-- The `File` shape produced by `S3Service.listFiles` (the fields the sync
job reads; `previewUrl` is always `null` there and is omitted). -/
structure FileType where
  id : Str
  name : Str
  originalName : Str
  size : Nat
  createdAt : Nat
  url : Str
  mimeType : Str
  uploadedBy : Str
deriving DecidableEq

/-- The `DBFile` row shape selected by `S3DBSyncJob.listDBFiles`
(sync-s3-db.ts): id, name, url, size, mimeType. -/
structure DBFile where
  id : Str
  name : Str
  url : Str
  size : Nat
  mimeType : Str
deriving DecidableEq

/-- JS `s.split(sep).pop()` on a character list: the last `sep`-separated
segment (the whole string when `sep` is absent, empty when `s` ends in
`sep`). -/
def lastSegment (sep : Char) (s : Str) : Str :=
  (s.splitOn sep).getLastD []

/-- JS `s.substring(s.indexOf('-') + 1)`: everything after the first dash;
`indexOf` is `-1` when there is no dash, so the whole string is kept then. -/
def afterFirstDash (s : Str) : Str :=
  if '-' ∈ s then s.drop (s.indexOf '-' + 1) else s

/-- Model of `S3Service.getMimeType` (s3.ts): map the lower-cased extension
(`fileName.split('.').pop()`) to a mime type via the switch statement. -/
def getMimeType (fileName : Str) : Str :=
  let extension := (lastSegment '.' fileName).map Char.toLower
  if extension = str "jpg" ∨ extension = str "jpeg" then str "image/jpeg"
  else if extension = str "png" then str "image/png"
  else if extension = str "gif" then str "image/gif"
  else if extension = str "webp" then str "image/webp"
  else if extension = str "pdf" then str "application/pdf"
  else if extension = str "txt" then str "text/plain"
  else if extension = str "csv" then str "text/csv"
  else str "application/octet-stream"

/-- The locator URL written by `S3Service.listFiles`:
`endpoint + "/" + bucket + "/" + key`. -/
def urlOfKey (cfg : S3Config) (key : Str) : Str :=
  cfg.endpoint ++ str "/" ++ cfg.bucket ++ str "/" ++ key

/-- The pure post-processing of `S3Service.listFiles` (s3.ts lines 162-189)
applied to the raw listing: drop entries with an empty key or a key ending in
`/` (folder objects), then build the `File` value — `id` is the key, `name`
and `originalName` are the filename after its first dash, `url` is
endpoint/bucket/key, `mimeType` comes from the extension, `uploadedBy` is the
literal `system`. -/
def listFilesProcess (cfg : S3Config) (contents : List S3ObjectRaw) : List FileType :=
  (contents.filter (fun file => !file.key.isEmpty && !(file.key.getLast? == some '/'))).map
    (fun file =>
      let fileName := lastSegment '/' file.key
      let actualName := afterFirstDash fileName
      { id := file.key
        name := actualName
        originalName := actualName
        size := file.size
        createdAt := file.lastModified
        url := urlOfKey cfg file.key
        mimeType := getMimeType fileName
        uploadedBy := str "system" })

/-- Model of `S3DBSyncJob.getKeyFromUrl` (sync-s3-db.ts lines 97-100): strip the
`endpoint/bucket/` prefix when the URL starts with it, otherwise return the
URL unchanged. -/
def getKeyFromUrl (cfg : S3Config) (url : Str) : Str :=
  let pfx := cfg.endpoint ++ str "/" ++ cfg.bucket ++ str "/"
  if List.isPrefixOf pfx url then url.drop pfx.length else url

/-- The result record of `S3DBSyncJob.findDiscrepancies`. -/
structure Discrepancies where
  missingInDB : List FileType
  missingInS3 : List DBFile
deriving DecidableEq

/-- Model of `S3DBSyncJob.findDiscrepancies` (sync-s3-db.ts lines 82-95): the S3-side
key set is the files' `id`s (the store keys), the DB-side key set is
`getKeyFromUrl` of each row's `url`; each side keeps exactly its entries
whose key is absent from the opposite set. -/
def findDiscrepancies (cfg : S3Config) (s3Files : List FileType) (dbFiles : List DBFile) :
    Discrepancies :=
  let s3Keys := s3Files.map (fun f => f.id)
  let dbUrls := dbFiles.map (fun f => getKeyFromUrl cfg f.url)
  { missingInDB := s3Files.filter (fun s3File => !(dbUrls.contains s3File.id))
    missingInS3 := dbFiles.filter (fun dbFile => !(s3Keys.contains (getKeyFromUrl cfg dbFile.url))) }

/-- The `data` object passed to `prisma.file.create` in
`S3DBSyncJob.handleMissingInDB`. -/
structure NewFileData where
  name : Str
  originalName : Str
  url : Str
  size : Nat
  mimeType : Str
  uploadedBy : Str
deriving DecidableEq

/-- The argument of `publishFileDeletedEvent` (kafka.ts): the deleted
record's id and name and the acting identity. -/
structure DeleteEventData where
  fileId : Str
  fileName : Str
  deletedBy : Str
deriving DecidableEq

/-- An error raised by an external collaborator (transport failure, failed
insert or delete, failed Kafka send), carrying its message. -/
structure Err where
  msg : Str
deriving DecidableEq

/-- One externally observable step of a run: the two snapshot reads, the
three mutations (catalog insert, catalog delete, event publication), and the
logged non-mutating outcomes (skip warning, producer-missing warning, the
per-item and publish error logs). -/
inductive Effect where
  | readS3
  | readDB
  | insert (data : NewFileData)
  | delete (id : Str)
  | publish (event : DeleteEventData)
  | warnSkip
  | warnNoProducer
  | logCreateError (id : Str)
  | logDeleteError (name : Str)
  | logPublishError (event : DeleteEventData)
deriving DecidableEq

/-- Whether an effect mutates the catalog or publishes an event. -/
def Effect.isMutation : Effect → Bool
  | .insert _ => true
  | .delete _ => true
  | .publish _ => true
  | _ => false

/-- Whether an effect is one of the two snapshot reads. -/
def Effect.isRead : Effect → Bool
  | .readS3 => true
  | .readDB => true
  | _ => false

/-- The environment of one run: the configuration, the outcome of each
external call.  `s3Contents` is the raw `ListObjectsV2` answer (or a
transport error), `dbRows` the `findMany` answer, `insertOutcome` and
`deleteOutcome` the per-item results of `prisma.file.create` /
`prisma.file.delete`, `producerInitialized` whether `initKafkaProducer`
succeeded, and `sendOutcome` the result of each `producer.send`. -/
structure World where
  cfg : S3Config
  s3Contents : Except Err (List S3ObjectRaw)
  dbRows : Except Err (List DBFile)
  insertOutcome : NewFileData → Except Err Unit
  deleteOutcome : Str → Except Err Unit
  producerInitialized : Bool
  sendOutcome : DeleteEventData → Except Err Unit

/-- Model of `publishFileDeletedEvent` (kafka.ts lines 77-109): when the producer is
not initialized, warn and return; otherwise try `producer.send` and, on
failure, log the error — the catch swallows it, so the returned result is
`ok` on every path. -/
def publishFileDeletedEvent (w : World) (eventData : DeleteEventData) :
    Except Err Unit × List Effect :=
  if !w.producerInitialized then
    (Except.ok (), [Effect.warnNoProducer])
  else
    match w.sendOutcome eventData with
    | Except.ok _ => (Except.ok (), [Effect.publish eventData])
    | Except.error _ => (Except.ok (), [Effect.logPublishError eventData])

/-- The `data` object built in the `handleMissingInDB` loop body for one S3
file: its name, original name, URL, size and mime type, with `uploadedBy`
the fixed sentinel `system-sync`. -/
def newFileDataOf (file : FileType) : NewFileData :=
  { name := file.name
    originalName := file.originalName
    url := file.url
    size := file.size
    mimeType := file.mimeType
    uploadedBy := str "system-sync" }

/-- One iteration of the `handleMissingInDB` loop: attempt the insert; on
failure the catch logs the S3 file's id and the loop moves on. -/
def syncInsertItem (w : World) (file : FileType) : List Effect :=
  match w.insertOutcome (newFileDataOf file) with
  | Except.ok _ => [Effect.insert (newFileDataOf file)]
  | Except.error _ => [Effect.logCreateError file.id]

/-- Model of `S3DBSyncJob.handleMissingInDB` (sync-s3-db.ts lines 112-130): the
sequential per-item loop; every item is processed whatever the earlier
outcomes were. -/
def handleMissingInDB (w : World) (missingFiles : List FileType) : List Effect :=
  missingFiles.flatMap (syncInsertItem w)

/-- One iteration of the `handleMissingInS3` loop: delete the row by id,
then publish the deletion event with the same id and name and the
`system-sync` sentinel; the catch around both logs the row's name.  (The
publish branch on `Except.error` mirrors the catch but is unreachable, since
the notifier never raises.) -/
def syncDeleteItem (w : World) (file : DBFile) : List Effect :=
  match w.deleteOutcome file.id with
  | Except.error _ => [Effect.logDeleteError file.name]
  | Except.ok _ =>
    let p := publishFileDeletedEvent w
      { fileId := file.id, fileName := file.name, deletedBy := str "system-sync" }
    match p.1 with
    | Except.ok _ => Effect.delete file.id :: p.2
    | Except.error _ => Effect.delete file.id :: (p.2 ++ [Effect.logDeleteError file.name])

/-- Model of `S3DBSyncJob.handleMissingInS3` (sync-s3-db.ts lines 132-152): the
sequential per-item loop; every item is processed whatever the earlier
outcomes were. -/
def handleMissingInS3 (w : World) (missingFiles : List DBFile) : List Effect :=
  missingFiles.flatMap (syncDeleteItem w)

/-- The outcome of one invocation of `S3DBSyncJob.start`: the returned (or
raised) result, the trace of observable effects, and the value of the
`isRunning` flag once the invocation has returned. -/
structure RunResult where
  result : Except Err Unit
  trace : List Effect
  isRunningAfter : Bool

/-- Model of `S3DBSyncJob.start` (sync-s3-db.ts lines 19-64).  If `isRunning` is set,
warn and return at once, leaving the flag to the in-flight run.  Otherwise
set the flag, read the S3 listing then the DB listing (an error in either is
re-thrown), diff, run the two repair passes under their non-emptiness
checks, and — in the `finally` — clear the flag on every exit path, so
`isRunningAfter` is `false` on both the success and the error branches. -/
def start (w : World) (isRunning : Bool) : RunResult :=
  if isRunning then
    { result := Except.ok (), trace := [Effect.warnSkip], isRunningAfter := isRunning }
  else
    match w.s3Contents with
    | Except.error e =>
      { result := Except.error e, trace := [Effect.readS3], isRunningAfter := false }
    | Except.ok contents =>
      match w.dbRows with
      | Except.error e =>
        { result := Except.error e, trace := [Effect.readS3, Effect.readDB],
          isRunningAfter := false }
      | Except.ok dbFiles =>
        let s3Files := listFilesProcess w.cfg contents
        let d := findDiscrepancies w.cfg s3Files dbFiles
        let t1 := if d.missingInDB.length > 0 then handleMissingInDB w d.missingInDB else []
        let t2 := if d.missingInS3.length > 0 then handleMissingInS3 w d.missingInS3 else []
        { result := Except.ok (), trace := Effect.readS3 :: Effect.readDB :: (t1 ++ t2),
          isRunningAfter := false }

/-! ### Helper lemmas -/

/-- The function `List.contains` agrees with membership (the model of JS `Set.has`). -/
theorem contains_iff_mem {α : Type} [BEq α] [LawfulBEq α] (l : List α) (a : α) :
    l.contains a = true ↔ a ∈ l := by
  simp [List.contains]

/-- A list is a `isPrefixOf` of itself followed by anything. -/
theorem isPrefixOf_append (l k : Str) : List.isPrefixOf l (l ++ k) = true := by
  induction l with
  | nil => simp [List.isPrefixOf]
  | cons a t ih => simp [List.isPrefixOf, ih]

/-- Round trip of the key codec: stripping the `endpoint/bucket/` prefix from
a URL that `listFiles` built for `key` gives back `key`. -/
theorem getKeyFromUrl_urlOfKey (cfg : S3Config) (key : Str) :
    getKeyFromUrl cfg (urlOfKey cfg key) = key := by
  simp [getKeyFromUrl, urlOfKey, ← List.append_assoc, isPrefixOf_append, List.drop_left]

/-- Every file produced by the `listFiles` post-processing carries the URL
built from its own key. -/
theorem url_of_mem_listFilesProcess (cfg : S3Config) (contents : List S3ObjectRaw)
    (f : FileType) (hf : f ∈ listFilesProcess cfg contents) :
    f.url = urlOfKey cfg f.id := by
  unfold listFilesProcess at hf
  rw [List.mem_map] at hf
  obtain ⟨raw, _, rfl⟩ := hf
  rfl

/-- Every file produced by the `listFiles` post-processing normalizes back to
its own store key under the sync job's key codec. -/
theorem key_of_mem_listFilesProcess (cfg : S3Config) (contents : List S3ObjectRaw)
    (f : FileType) (hf : f ∈ listFilesProcess cfg contents) :
    getKeyFromUrl cfg f.url = f.id := by
  rw [url_of_mem_listFilesProcess cfg contents f hf, getKeyFromUrl_urlOfKey]

/-- Membership in `missingInDB`: in the store listing and the key absent
from the normalized catalog keys. -/
theorem mem_missingInDB_iff (cfg : S3Config) (s3Files : List FileType)
    (dbFiles : List DBFile) (f : FileType) :
    f ∈ (findDiscrepancies cfg s3Files dbFiles).missingInDB ↔
      f ∈ s3Files ∧ f.id ∉ dbFiles.map (fun r => getKeyFromUrl cfg r.url) := by
  simp [findDiscrepancies, List.mem_filter, List.contains]

/-- Membership in `missingInS3`: in the catalog listing and the normalized
key absent from the store keys. -/
theorem mem_missingInS3_iff (cfg : S3Config) (s3Files : List FileType)
    (dbFiles : List DBFile) (r : DBFile) :
    r ∈ (findDiscrepancies cfg s3Files dbFiles).missingInS3 ↔
      r ∈ dbFiles ∧ getKeyFromUrl cfg r.url ∉ s3Files.map (fun f => f.id) := by
  simp [findDiscrepancies, List.mem_filter, List.contains]

/-- The catalog row created by `prisma.file.create` for one repaired S3
file, projected to the `DBFile` shape the next run reads back; `newId`
stands for the catalog-assigned id. -/
def insertedRow (newId : FileType → Str) (f : FileType) : DBFile :=
  { id := newId f
    name := f.name
    url := f.url
    size := f.size
    mimeType := f.mimeType }

/-- The catalog contents after one run in which every repair succeeded:
every row of `missingInS3` was deleted by its id (the remaining rows are
exactly the complement of the missing filter) and one row was inserted per
file of `missingInDB`, with `newId` the catalog-assigned ids. -/
def dbAfterSuccessfulRun (cfg : S3Config) (s3Files : List FileType)
    (dbFiles : List DBFile) (newId : FileType → Str) : List DBFile :=
  dbFiles.filter (fun r => (s3Files.map (fun f => f.id)).contains (getKeyFromUrl cfg r.url))
    ++ (findDiscrepancies cfg s3Files dbFiles).missingInDB.map (insertedRow newId)

/-- A `flatMap` whose function agrees pointwise with another on the list can
be replaced by it. -/
theorem flatMap_congr {α β : Type} (l : List α) (f g : α → List β)
    (h : ∀ a ∈ l, f a = g a) : l.flatMap f = l.flatMap g := by
  rw [List.flatMap_def, List.flatMap_def]
  exact congrArg List.flatten (List.map_congr_left h)

/-- A `flatMap` producing a singleton per element is a `map`. -/
theorem flatMap_eq_map_of_forall_singleton {α β : Type} (l : List α) (f : α → List β)
    (g : α → β) (h : ∀ a ∈ l, f a = [g a]) : l.flatMap f = l.map g := by
  induction l with
  | nil => rfl
  | cons a t ih =>
    rw [List.flatMap_cons, h a (List.mem_cons_self a t),
      ih (fun b hb => h b (List.mem_cons_of_mem a hb))]
    rfl

/-- The non-emptiness check before `handleMissingInDB` is redundant: on an
empty list the pass performs nothing anyway. -/
theorem guard_handleDB (w : World) (l : List FileType) :
    (if l.length > 0 then handleMissingInDB w l else []) = handleMissingInDB w l := by
  cases l <;> simp [handleMissingInDB]

/-- The non-emptiness check before `handleMissingInS3` is redundant: on an
empty list the pass performs nothing anyway. -/
theorem guard_handleS3 (w : World) (l : List DBFile) :
    (if l.length > 0 then handleMissingInS3 w l else []) = handleMissingInS3 w l := by
  cases l <;> simp [handleMissingInS3]

/-- Shape of a run whose two snapshot reads succeed: both repair passes run
on the diff of the two listings, and the flag is released. -/
theorem start_ok_trace (w : World) (contents : List S3ObjectRaw) (dbFiles : List DBFile)
    (hs : w.s3Contents = Except.ok contents) (hd : w.dbRows = Except.ok dbFiles) :
    start w false =
      { result := Except.ok ()
        trace := Effect.readS3 :: Effect.readDB ::
          (handleMissingInDB w
              (findDiscrepancies w.cfg (listFilesProcess w.cfg contents) dbFiles).missingInDB
            ++ handleMissingInS3 w
              (findDiscrepancies w.cfg (listFilesProcess w.cfg contents) dbFiles).missingInS3)
        isRunningAfter := false } := by
  simp [start, hs, hd, guard_handleDB, guard_handleS3]

/-! ### Concrete sample data for witnesses -/

/-- A raw store object under the key `files/image/123-test.jpg`. -/
def rawA : S3ObjectRaw :=
  { key := str "files/image/123-test.jpg", size := 1024, lastModified := 0 }

/-- A raw store object under the key `files/text/5-c.txt`. -/
def rawC : S3ObjectRaw :=
  { key := str "files/text/5-c.txt", size := 7, lastModified := 0 }

/-- A catalog row matching `rawA`'s normalized key. -/
def rowA : DBFile :=
  { id := str "db-0"
    name := str "test.jpg"
    url := urlOfKey defaultS3Config (str "files/image/123-test.jpg")
    size := 1024
    mimeType := str "image/jpeg" }

/-- A store-side file as `listFiles` would report it for key
`files/image/123-test.jpg` under the default configuration. -/
def fileA : FileType :=
  { id := str "files/image/123-test.jpg"
    name := str "test.jpg"
    originalName := str "test.jpg"
    size := 1024
    createdAt := 0
    url := urlOfKey defaultS3Config (str "files/image/123-test.jpg")
    mimeType := str "image/jpeg"
    uploadedBy := str "system" }

/-- A catalog row whose locator URL points at a key absent from the sample
store listing. -/
def rowB : DBFile :=
  { id := str "db-1"
    name := str "missing.jpg"
    url := urlOfKey defaultS3Config (str "files/image/123-missing.jpg")
    size := 1024
    mimeType := str "image/jpeg" }

/-- A second catalog row with a different id but the same normalized key as
`rowB`. -/
def rowB2 : DBFile :=
  { id := str "db-2"
    name := str "missing.jpg"
    url := urlOfKey defaultS3Config (str "files/image/123-missing.jpg")
    size := 1024
    mimeType := str "image/jpeg" }

/-- A world whose S3 snapshot read fails. -/
def wS3Fail : World :=
  { cfg := defaultS3Config
    s3Contents := Except.error { msg := str "S3 down" }
    dbRows := Except.ok []
    insertOutcome := fun _ => Except.ok ()
    deleteOutcome := fun _ => Except.ok ()
    producerInitialized := true
    sendOutcome := fun _ => Except.ok () }

/-- A world whose catalog snapshot read fails (the S3 read succeeds). -/
def wDBFail : World :=
  { cfg := defaultS3Config
    s3Contents := Except.ok []
    dbRows := Except.error { msg := str "DB down" }
    insertOutcome := fun _ => Except.ok ()
    deleteOutcome := fun _ => Except.ok ()
    producerInitialized := true
    sendOutcome := fun _ => Except.ok () }

/-- A world whose Kafka send always fails but whose catalog operations
succeed. -/
def wPublishFail : World :=
  { cfg := defaultS3Config
    s3Contents := Except.ok []
    dbRows := Except.ok [rowB]
    insertOutcome := fun _ => Except.ok ()
    deleteOutcome := fun _ => Except.ok ()
    producerInitialized := true
    sendOutcome := fun _ => Except.error { msg := str "kafka down" } }

/-- A world with one orphan store object and an empty catalog; every
external call succeeds. -/
def w123 : World :=
  { cfg := defaultS3Config
    s3Contents := Except.ok [rawA]
    dbRows := Except.ok []
    insertOutcome := fun _ => Except.ok ()
    deleteOutcome := fun _ => Except.ok ()
    producerInitialized := true
    sendOutcome := fun _ => Except.ok () }

/-- A world whose store and catalog listings agree on their normalized
keys. -/
def wAgree : World :=
  { cfg := defaultS3Config
    s3Contents := Except.ok [rawA]
    dbRows := Except.ok [rowA]
    insertOutcome := fun _ => Except.ok ()
    deleteOutcome := fun _ => Except.ok ()
    producerInitialized := true
    sendOutcome := fun _ => Except.ok () }

/-- A world in which every catalog delete and every Kafka send succeeds. -/
def wDeleteOk : World :=
  { cfg := defaultS3Config
    s3Contents := Except.ok []
    dbRows := Except.ok [rowB, rowB2]
    insertOutcome := fun _ => Except.ok ()
    deleteOutcome := fun _ => Except.ok ()
    producerInitialized := true
    sendOutcome := fun _ => Except.ok () }

/-- A world with repairs pending in both directions in which every catalog
insert fails while deletes succeed. -/
def wMixed : World :=
  { cfg := defaultS3Config
    s3Contents := Except.ok [rawA, rawC]
    dbRows := Except.ok [rowB]
    insertOutcome := fun _ => Except.error { msg := str "insert failed" }
    deleteOutcome := fun _ => Except.ok ()
    producerInitialized := true
    sendOutcome := fun _ => Except.ok () }

/-- The world seen by a second reconciliation run: the store unchanged, the
catalog as the first (fully successful) run left it. -/
def wSecond : World :=
  { cfg := defaultS3Config
    s3Contents := Except.ok [rawA]
    dbRows := Except.ok (dbAfterSuccessfulRun defaultS3Config
      (listFilesProcess defaultS3Config [rawA]) [rowB] (fun _ => str "new-1"))
    insertOutcome := fun _ => Except.ok ()
    deleteOutcome := fun _ => Except.ok ()
    producerInitialized := true
    sendOutcome := fun _ => Except.ok () }

/-! ### Claims -/

/-- C1: `findDiscrepancies` keeps in `missingInDB` exactly the S3 files whose
key is absent from the set of normalized catalog keys, and in `missingInS3`
exactly the DB rows whose normalized key is absent from the set of store
keys; each entry is judged independently, so two DB rows sharing a
normalized key absent from the store both appear (the multiplicity of each
such row is preserved — no deduplication). -/
theorem findDiscrepancies_membership_spec (cfg : S3Config) (s3Files : List FileType)
    (dbFiles : List DBFile) :
    (∀ f, f ∈ (findDiscrepancies cfg s3Files dbFiles).missingInDB ↔
        f ∈ s3Files ∧ f.id ∉ dbFiles.map (fun r => getKeyFromUrl cfg r.url)) ∧
    (∀ r, r ∈ (findDiscrepancies cfg s3Files dbFiles).missingInS3 ↔
        r ∈ dbFiles ∧ getKeyFromUrl cfg r.url ∉ s3Files.map (fun f => f.id)) ∧
    (∀ r : DBFile, getKeyFromUrl cfg r.url ∉ s3Files.map (fun f => f.id) →
        (findDiscrepancies cfg s3Files dbFiles).missingInS3.count r = dbFiles.count r) := by
  refine ⟨?_, ?_, ?_⟩
  · intro f
    simp [findDiscrepancies, List.mem_filter, List.contains]
  · intro r
    simp [findDiscrepancies, List.mem_filter, List.contains]
  · intro r hr
    unfold findDiscrepancies
    exact List.count_filter (by simpa [List.contains] using hr)

/-- C1 witness: with one store file and two catalog rows sharing a key
absent from the store, both rows are missing in store (count 2) and the
store file is missing in catalog. -/
theorem findDiscrepancies_membership_spec_witness :
    (fileA ∈ (findDiscrepancies defaultS3Config [fileA] [rowB, rowB2]).missingInDB ↔
      fileA ∈ [fileA] ∧
      fileA.id ∉ [rowB, rowB2].map (fun r => getKeyFromUrl defaultS3Config r.url)) ∧
    (findDiscrepancies defaultS3Config [fileA] [rowB, rowB2]).missingInS3.count rowB =
      [rowB, rowB2].count rowB :=
  ⟨(findDiscrepancies_membership_spec defaultS3Config [fileA] [rowB, rowB2]).1 fileA,
   (findDiscrepancies_membership_spec defaultS3Config [fileA] [rowB, rowB2]).2.2 rowB
     (by decide)⟩

/-- C2: the run guard is a two-state machine over `isRunning`: invoked while
running, `start` returns normally with only the skip warning (no read, no
mutation) and leaves the flag to the in-flight run; invoked while idle, the
flag is `false` again on every exit path, and the pipeline's first snapshot
read is always performed, so an invocation after a failed run executes the
pipeline normally. -/
theorem runGuard_spec (w : World) :
    ((start w true).result = Except.ok () ∧
      (start w true).trace = [Effect.warnSkip] ∧
      (start w true).isRunningAfter = true) ∧
    (start w false).isRunningAfter = false ∧
    Effect.readS3 ∈ (start w false).trace := by
  refine ⟨⟨rfl, rfl, rfl⟩, ?_, ?_⟩ <;>
  · cases hs : w.s3Contents with
    | error e => simp [start, hs]
    | ok contents =>
      cases hd : w.dbRows with
      | error e => simp [start, hs, hd]
      | ok rows => simp [start, hs, hd]

/-- C2 witness: the run guard evaluated on a concrete world: skip with only
a warning while running, flag released and snapshot read performed while
idle. -/
theorem runGuard_spec_witness :
    ((start wAgree true).result = Except.ok () ∧
      (start wAgree true).trace = [Effect.warnSkip] ∧
      (start wAgree true).isRunningAfter = true) ∧
    (start wAgree false).isRunningAfter = false ∧
    Effect.readS3 ∈ (start wAgree false).trace :=
  runGuard_spec wAgree

/-- C7: a failure of either snapshot read aborts the run: the underlying
error is the run's result (re-raised, not treated as an empty listing), the
trace shows the single read attempt and no repair effect, and the guard flag
is released. -/
theorem snapshotReadFailure_aborts (w : World) (e : Err) :
    (w.s3Contents = Except.error e →
      start w false =
        { result := Except.error e, trace := [Effect.readS3], isRunningAfter := false }) ∧
    (∀ contents, w.s3Contents = Except.ok contents → w.dbRows = Except.error e →
      start w false =
        { result := Except.error e, trace := [Effect.readS3, Effect.readDB],
          isRunningAfter := false }) := by
  constructor
  · intro hs
    simp [start, hs]
  · intro contents hs hd
    simp [start, hs, hd]

/-- C7 witness: concrete runs with a failing S3 read and a failing DB read
return the underlying error with no mutation in the trace. -/
theorem snapshotReadFailure_aborts_witness :
    start wS3Fail false =
      { result := Except.error { msg := str "S3 down" }, trace := [Effect.readS3],
        isRunningAfter := false } ∧
    start wDBFail false =
      { result := Except.error { msg := str "DB down" },
        trace := [Effect.readS3, Effect.readDB], isRunningAfter := false } :=
  ⟨(snapshotReadFailure_aborts wS3Fail { msg := str "S3 down" }).1 rfl,
   (snapshotReadFailure_aborts wDBFail { msg := str "DB down" }).2 [] rfl rfl⟩

/-- C8: the deletion-event publication never raises — its result is `ok` for
every producer state and send outcome — and a row whose catalog delete
succeeded appears as deleted in the pass's trace whatever the publish
outcome is. -/
theorem publishNeverRaises_spec :
    (∀ (w : World) (d : DeleteEventData), (publishFileDeletedEvent w d).1 = Except.ok ()) ∧
    (∀ (w : World) (f : DBFile) (files : List DBFile), f ∈ files →
      w.deleteOutcome f.id = Except.ok () →
      Effect.delete f.id ∈ handleMissingInS3 w files) := by
  constructor
  · intro w d
    unfold publishFileDeletedEvent
    cases hp : w.producerInitialized
    · simp
    · cases hsend : w.sendOutcome d <;> simp [hsend]
  · intro w f files hmem hdel
    unfold handleMissingInS3
    refine List.mem_flatMap.mpr ⟨f, hmem, ?_⟩
    unfold syncDeleteItem
    rw [hdel]
    cases hpub :
        (publishFileDeletedEvent w
          { fileId := f.id, fileName := f.name, deletedBy := str "system-sync" }).1 <;>
      simp [hpub]

/-- C8 witness: in a world whose Kafka send always fails, the publication
still returns `ok` and the concrete deleted row is in the pass's trace. -/
theorem publishNeverRaises_spec_witness :
    (publishFileDeletedEvent wPublishFail
      { fileId := str "db-1", fileName := str "missing.jpg",
        deletedBy := str "system-sync" }).1 = Except.ok () ∧
    Effect.delete (str "db-1") ∈ handleMissingInS3 wPublishFail [rowB] :=
  ⟨publishNeverRaises_spec.1 wPublishFail
      { fileId := str "db-1", fileName := str "missing.jpg", deletedBy := str "system-sync" },
   publishNeverRaises_spec.2 wPublishFail rowB [rowB] (by simp) rfl⟩

/-- C10: a run that raises performed no catalog insert, no catalog delete
and no event publication — only the snapshot reads precede the raise. -/
theorem raisingRun_noMutation (w : World) (b : Bool) (e : Err)
    (h : (start w b).result = Except.error e) :
    (start w b).trace.all (fun ef => !ef.isMutation) = true := by
  cases b
  · cases hs : w.s3Contents with
    | error e' =>
      simp [start, hs, Effect.isMutation]
    | ok contents =>
      cases hd : w.dbRows with
      | error e' =>
        simp [start, hs, hd, Effect.isMutation]
      | ok rows =>
        simp [start, hs, hd] at h
  · simp [start] at h

/-- C10 witness: the concrete failing-S3 run raises and its trace carries no
mutation. -/
theorem raisingRun_noMutation_witness :
    ((start wS3Fail false).trace.all (fun ef => !ef.isMutation)) = true :=
  raisingRun_noMutation wS3Fail false { msg := str "S3 down" } rfl

/-- C3: when the normalized-key set of the store listing equals that of the
catalog listing, a run performs no insert, no delete and no event
publication — its trace is just the two snapshot reads — and it returns
normally. -/
theorem noDiscrepancy_noMutation (w : World) (contents : List S3ObjectRaw)
    (dbFiles : List DBFile)
    (hs : w.s3Contents = Except.ok contents) (hd : w.dbRows = Except.ok dbFiles)
    (hkeys : ∀ k : Str, k ∈ (listFilesProcess w.cfg contents).map (fun f => f.id) ↔
        k ∈ dbFiles.map (fun r => getKeyFromUrl w.cfg r.url)) :
    (start w false).trace = [Effect.readS3, Effect.readDB] ∧
    (start w false).result = Except.ok () := by
  rw [start_ok_trace w contents dbFiles hs hd]
  have h1 : (findDiscrepancies w.cfg (listFilesProcess w.cfg contents) dbFiles).missingInDB
      = [] := by
    rw [List.eq_nil_iff_forall_not_mem]
    intro f hf
    rw [mem_missingInDB_iff] at hf
    exact hf.2 ((hkeys f.id).mp (List.mem_map_of_mem _ hf.1))
  have h2 : (findDiscrepancies w.cfg (listFilesProcess w.cfg contents) dbFiles).missingInS3
      = [] := by
    rw [List.eq_nil_iff_forall_not_mem]
    intro r hr
    rw [mem_missingInS3_iff] at hr
    exact hr.2 ((hkeys _).mpr (List.mem_map_of_mem _ hr.1))
  constructor
  · simp [h1, h2, handleMissingInDB, handleMissingInS3]
  · rfl

/-- C3 witness: a concrete agreeing snapshot pair leaves both stores
untouched. -/
theorem noDiscrepancy_noMutation_witness :
    (start wAgree false).trace = [Effect.readS3, Effect.readDB] ∧
    (start wAgree false).result = Except.ok () :=
  noDiscrepancy_noMutation wAgree [rawA] [rowA] rfl rfl (fun _ => Iff.rfl)

/-- C4: for each record of `missingInS3` the pass deletes the catalog row by
its `recordId` and then publishes exactly one deletion event with the same
id, the same name and the `system-sync` sentinel as actor — two separate
steps with the delete first — provided each delete and each send succeeds
and the producer is up. -/
theorem deleteMissingInStore_spec (w : World) (missingFiles : List DBFile)
    (hdel : ∀ f ∈ missingFiles, w.deleteOutcome f.id = Except.ok ())
    (hprod : w.producerInitialized = true)
    (hsend : ∀ f ∈ missingFiles,
      w.sendOutcome { fileId := f.id, fileName := f.name, deletedBy := str "system-sync" } =
        Except.ok ()) :
    handleMissingInS3 w missingFiles =
      missingFiles.flatMap (fun f =>
        [Effect.delete f.id,
         Effect.publish { fileId := f.id, fileName := f.name,
                          deletedBy := str "system-sync" }]) := by
  unfold handleMissingInS3
  refine flatMap_congr missingFiles _ _ ?_
  intro f hf
  unfold syncDeleteItem
  rw [hdel f hf]
  simp [publishFileDeletedEvent, hprod, hsend f hf]

/-- C4 witness: two concrete rows missing in store are each deleted and then
notified once, in order. -/
theorem deleteMissingInStore_spec_witness :
    handleMissingInS3 wDeleteOk [rowB, rowB2] =
      [rowB, rowB2].flatMap (fun f =>
        [Effect.delete f.id,
         Effect.publish { fileId := f.id, fileName := f.name,
                          deletedBy := str "system-sync" }]) :=
  deleteMissingInStore_spec wDeleteOk [rowB, rowB2] (fun _ _ => rfl) rfl (fun _ _ => rfl)

/-- C5: for each store object of `missingInCatalog` the pass inserts exactly
one record built from that object with the `system-sync` sentinel as
uploader (when the inserts succeed), and this pass never publishes any
event; concretely, with one store object under `files/image/123-test.jpg`
and an empty catalog, the run performs exactly one insert whose URL is the
endpoint + bucket + key and publishes nothing. -/
theorem createMissingInCatalog_spec :
    (∀ (w : World) (missingFiles : List FileType),
      (∀ f ∈ missingFiles, w.insertOutcome (newFileDataOf f) = Except.ok ()) →
      handleMissingInDB w missingFiles =
        missingFiles.map (fun f => Effect.insert (newFileDataOf f))) ∧
    (∀ (w : World) (files : List FileType) (ev : DeleteEventData),
      Effect.publish ev ∉ handleMissingInDB w files) ∧
    (start w123 false).trace =
      [Effect.readS3, Effect.readDB, Effect.insert (newFileDataOf fileA)] ∧
    newFileDataOf fileA =
      { name := str "test.jpg", originalName := str "test.jpg"
        url := defaultS3Config.endpoint ++ str "/" ++ defaultS3Config.bucket ++ str "/" ++
          str "files/image/123-test.jpg"
        size := 1024, mimeType := str "image/jpeg", uploadedBy := str "system-sync" } ∧
    (start w123 false).result = Except.ok () := by
  refine ⟨?_, ?_, by decide, by decide, rfl⟩
  · intro w missingFiles hins
    unfold handleMissingInDB
    refine flatMap_eq_map_of_forall_singleton missingFiles _ _ ?_
    intro f hf
    unfold syncInsertItem
    rw [hins f hf]
  · intro w files ev hmem
    unfold handleMissingInDB at hmem
    rw [List.mem_flatMap] at hmem
    obtain ⟨f, _, hf⟩ := hmem
    unfold syncInsertItem at hf
    cases h : w.insertOutcome (newFileDataOf f) <;> rw [h] at hf <;> simp at hf

/-- C5 witness: the create pass on the concrete orphan store object performs
exactly its one insert and cannot contain a publish effect. -/
theorem createMissingInCatalog_spec_witness :
    handleMissingInDB w123 [fileA] = [Effect.insert (newFileDataOf fileA)] ∧
    Effect.publish { fileId := str "x", fileName := str "y", deletedBy := str "z" } ∉
      handleMissingInDB w123 [fileA] :=
  ⟨createMissingInCatalog_spec.1 w123 [fileA] (fun _ _ => rfl),
   createMissingInCatalog_spec.2.1 w123 [fileA]
     { fileId := str "x", fileName := str "y", deletedBy := str "z" }⟩

/-- C6: with both snapshot reads successful, the run returns normally
whatever the per-item outcomes are, and every item of both diff lists is
attempted: the trace carries, for each, either its successful effect or its
failure log. -/
theorem perItemFaultIsolation_spec (w : World) (contents : List S3ObjectRaw)
    (dbFiles : List DBFile)
    (hs : w.s3Contents = Except.ok contents) (hd : w.dbRows = Except.ok dbFiles) :
    (start w false).result = Except.ok () ∧
    (∀ f ∈ (findDiscrepancies w.cfg (listFilesProcess w.cfg contents) dbFiles).missingInDB,
      Effect.insert (newFileDataOf f) ∈ (start w false).trace ∨
      Effect.logCreateError f.id ∈ (start w false).trace) ∧
    (∀ r ∈ (findDiscrepancies w.cfg (listFilesProcess w.cfg contents) dbFiles).missingInS3,
      Effect.delete r.id ∈ (start w false).trace ∨
      Effect.logDeleteError r.name ∈ (start w false).trace) := by
  rw [start_ok_trace w contents dbFiles hs hd]
  refine ⟨rfl, ?_, ?_⟩
  · intro f hf
    have hitem : Effect.insert (newFileDataOf f) ∈ syncInsertItem w f ∨
        Effect.logCreateError f.id ∈ syncInsertItem w f := by
      unfold syncInsertItem
      cases h : w.insertOutcome (newFileDataOf f) with
      | ok u => left; simp [h]
      | error e => right; simp [h]
    rcases hitem with h | h
    · left
      have : Effect.insert (newFileDataOf f) ∈
          handleMissingInDB w
            (findDiscrepancies w.cfg (listFilesProcess w.cfg contents) dbFiles).missingInDB :=
        List.mem_flatMap.mpr ⟨f, hf, h⟩
      exact List.mem_cons_of_mem _ (List.mem_cons_of_mem _ (List.mem_append_left _ this))
    · right
      have : Effect.logCreateError f.id ∈
          handleMissingInDB w
            (findDiscrepancies w.cfg (listFilesProcess w.cfg contents) dbFiles).missingInDB :=
        List.mem_flatMap.mpr ⟨f, hf, h⟩
      exact List.mem_cons_of_mem _ (List.mem_cons_of_mem _ (List.mem_append_left _ this))
  · intro r hr
    have hitem : Effect.delete r.id ∈ syncDeleteItem w r ∨
        Effect.logDeleteError r.name ∈ syncDeleteItem w r := by
      unfold syncDeleteItem
      cases h : w.deleteOutcome r.id with
      | ok u =>
        left
        cases hpub : (publishFileDeletedEvent w
          { fileId := r.id, fileName := r.name, deletedBy := str "system-sync" }).1 <;>
          simp [h, hpub]
      | error e => right; simp [h]
    rcases hitem with h | h
    · left
      have : Effect.delete r.id ∈
          handleMissingInS3 w
            (findDiscrepancies w.cfg (listFilesProcess w.cfg contents) dbFiles).missingInS3 :=
        List.mem_flatMap.mpr ⟨r, hr, h⟩
      exact List.mem_cons_of_mem _ (List.mem_cons_of_mem _ (List.mem_append_right _ this))
    · right
      have : Effect.logDeleteError r.name ∈
          handleMissingInS3 w
            (findDiscrepancies w.cfg (listFilesProcess w.cfg contents) dbFiles).missingInS3 :=
        List.mem_flatMap.mpr ⟨r, hr, h⟩
      exact List.mem_cons_of_mem _ (List.mem_cons_of_mem _ (List.mem_append_right _ this))

/-- C6 witness: a concrete run in which every insert fails still returns
normally, and both a failing insert item and a succeeding delete item leave
their mark in the trace. -/
theorem perItemFaultIsolation_spec_witness :
    (start wMixed false).result = Except.ok () ∧
    (Effect.insert (newFileDataOf fileA) ∈ (start wMixed false).trace ∨
      Effect.logCreateError fileA.id ∈ (start wMixed false).trace) ∧
    (Effect.delete rowB.id ∈ (start wMixed false).trace ∨
      Effect.logDeleteError rowB.name ∈ (start wMixed false).trace) :=
  ⟨(perItemFaultIsolation_spec wMixed [rawA, rawC] [rowB] rfl rfl).1,
   (perItemFaultIsolation_spec wMixed [rawA, rawC] [rowB] rfl rfl).2.1 fileA (by decide),
   (perItemFaultIsolation_spec wMixed [rawA, rawC] [rowB] rfl rfl).2.2 rowB (by decide)⟩

/-- After a fully successful run, every normalized key of either side is
covered by the other: the second diff is empty in both directions. -/
theorem secondDiff_empty (cfg : S3Config) (s3Files : List FileType) (dbFiles : List DBFile)
    (newId : FileType → Str)
    (hurl : ∀ f ∈ s3Files, getKeyFromUrl cfg f.url = f.id) :
    findDiscrepancies cfg s3Files (dbAfterSuccessfulRun cfg s3Files dbFiles newId) =
      { missingInDB := [], missingInS3 := [] } := by
  have hkey2 : ∀ r ∈ dbAfterSuccessfulRun cfg s3Files dbFiles newId,
      getKeyFromUrl cfg r.url ∈ s3Files.map (fun f => f.id) := by
    intro r hr
    rw [dbAfterSuccessfulRun, List.mem_append] at hr
    rcases hr with hr | hr
    · rw [List.mem_filter] at hr
      exact (contains_iff_mem _ _).mp hr.2
    · rw [List.mem_map] at hr
      obtain ⟨f, hf, rfl⟩ := hr
      have hfs3 : f ∈ s3Files := ((mem_missingInDB_iff cfg s3Files dbFiles f).mp hf).1
      have hk : getKeyFromUrl cfg (insertedRow newId f).url = f.id := hurl f hfs3
      rw [hk]
      exact List.mem_map_of_mem _ hfs3
  have hcover : ∀ f ∈ s3Files,
      f.id ∈ (dbAfterSuccessfulRun cfg s3Files dbFiles newId).map
        (fun r => getKeyFromUrl cfg r.url) := by
    intro f hf
    rw [dbAfterSuccessfulRun, List.map_append, List.mem_append]
    by_cases hc : f.id ∈ dbFiles.map (fun r => getKeyFromUrl cfg r.url)
    · left
      rw [List.mem_map] at hc
      obtain ⟨r, hr, hrk⟩ := hc
      rw [List.mem_map]
      refine ⟨r, ?_, hrk⟩
      rw [List.mem_filter]
      refine ⟨hr, ?_⟩
      rw [hrk]
      exact (contains_iff_mem _ _).mpr (List.mem_map_of_mem _ hf)
    · right
      have hmiss : f ∈ (findDiscrepancies cfg s3Files dbFiles).missingInDB :=
        (mem_missingInDB_iff cfg s3Files dbFiles f).mpr ⟨hf, hc⟩
      rw [List.map_map, List.mem_map]
      exact ⟨f, hmiss, hurl f hf⟩
  have h1 : (findDiscrepancies cfg s3Files
      (dbAfterSuccessfulRun cfg s3Files dbFiles newId)).missingInDB = [] := by
    rw [List.eq_nil_iff_forall_not_mem]
    intro f hfm
    rw [mem_missingInDB_iff] at hfm
    exact hfm.2 (hcover f hfm.1)
  have h2 : (findDiscrepancies cfg s3Files
      (dbAfterSuccessfulRun cfg s3Files dbFiles newId)).missingInS3 = [] := by
    rw [List.eq_nil_iff_forall_not_mem]
    intro r hrm
    rw [mem_missingInS3_iff] at hrm
    exact hrm.2 (hkey2 r hrm.1)
  rw [← h1, ← h2]

/-- C9: a second run over an unchanged store and the catalog left by a first
run whose repairs all succeeded performs no insert, no delete and no event
publication — its trace is just the two snapshot reads. -/
theorem idempotence_spec (cfg : S3Config) (contents : List S3ObjectRaw)
    (dbFiles : List DBFile) (newId : FileType → Str) (w₂ : World)
    (hcfg : w₂.cfg = cfg)
    (hs : w₂.s3Contents = Except.ok contents)
    (hd : w₂.dbRows = Except.ok
      (dbAfterSuccessfulRun cfg (listFilesProcess cfg contents) dbFiles newId)) :
    (start w₂ false).trace = [Effect.readS3, Effect.readDB] ∧
    (start w₂ false).result = Except.ok () := by
  subst hcfg
  rw [start_ok_trace w₂ contents _ hs hd]
  have hempty := secondDiff_empty w₂.cfg (listFilesProcess w₂.cfg contents) dbFiles newId
    (fun f hf => key_of_mem_listFilesProcess w₂.cfg contents f hf)
  rw [hempty]
  constructor
  · simp [handleMissingInDB, handleMissingInS3]
  · rfl

/-- C9 witness: the concrete second run after repairing one orphan object
and one dangling row performs no mutation. -/
theorem idempotence_spec_witness :
    (start wSecond false).trace = [Effect.readS3, Effect.readDB] ∧
    (start wSecond false).result = Except.ok () :=
  idempotence_spec defaultS3Config [rawA] [rowB] (fun _ => str "new-1") wSecond rfl rfl rfl

end FileManager
